import Mathlib

/-!
Verification of the authentication and token-lifecycle core of the
just-like-clockwork time-tracking backend.

The development shallowly embeds `app/services/auth_service.py` (credential
hashing and verification, access/refresh token issuance and validation,
refresh-token persistence and revocation) and the login handler of
`app/api/auth_routes.py`.

Modelling conventions:
* Python strings are `List Char`; time instants are `Int` (seconds).
* The PBKDF2-HMAC-SHA256 primitive is an abstract parameter
  `kdf : List Char → List Nat → Nat → List Nat` (password, salt bytes,
  iteration count ↦ derived-key bytes); every theorem about the hasher is
  universally quantified over it.
* Python exceptions that escape the embedded functions are surfaced as
  `Except PyErr`; exceptions caught inside the source (the
  `except (ValueError, IndexError)` in `verify_password`, the
  `except jwt.*` clauses in the token verifiers) are resolved to the
  value the handler returns.
* JWT strings are an inductive `TokenStr`: either a payload signed with a
  key (what `jwt.encode` produces) or an unforgeable opaque string; this
  idealizes HS256 as injective and unforgeable.
-/

deriving instance DecidableEq for Except

namespace Clockwork

/-! ### Python primitives: decimal integers, hex, split, compare_digest -/

/-- Exceptions that can escape the embedded functions. -/
inductive PyErr where
  | typeError
  | valueError
  deriving DecidableEq, Repr

/-- Value of an ASCII decimal digit character, `none` otherwise. -/
def digitVal? (c : Char) : Option Nat :=
  if '0' ≤ c ∧ c ≤ '9' then some (c.toNat - '0'.toNat) else none

/-- Character for a decimal digit (`0`–`9`). -/
def digitChar (d : Nat) : Char := Char.ofNat ('0'.toNat + d)

/-- Value of a run of decimal digits, most significant first; `none` if the
run is empty or contains a non-digit. -/
def decDigitsVal : List Char → Option Nat
  | [] => none
  | cs =>
    cs.foldl
      (fun acc c =>
        match acc, digitVal? c with
        | some a, some d => some (a * 10 + d)
        | _, _ => none)
      (some 0)

/-- Strip leading and trailing spaces, as Python `int()` does before
parsing. -/
def stripSpaces (cs : List Char) : List Char :=
  ((cs.dropWhile (· = ' ')).reverse.dropWhile (· = ' ')).reverse

/-- Signed decimal value of a space-stripped string: optional sign, then a
non-empty run of ASCII decimal digits. -/
def signedDigitsVal? : List Char → Option Int
  | [] => none
  | c :: rest =>
    if c = '-' then (decDigitsVal rest).map (fun n => -(n : Int))
    else if c = '+' then (decDigitsVal rest).map (fun n => (n : Int))
    else (decDigitsVal (c :: rest)).map (fun n => (n : Int))

/-- Python `int(s)` on a string: optional surrounding spaces, optional
sign, then a non-empty run of ASCII decimal digits; `none` models the
`ValueError` raised otherwise. -/
def pyInt? (cs : List Char) : Option Int :=
  signedDigitsVal? (stripSpaces cs)

/-- Little-endian decimal digits of `n`, with explicit fuel so that the
recursion is structural. -/
def natDigitsRevAux : Nat → Nat → List Nat
  | 0, _ => []
  | fuel + 1, n => if n = 0 then [] else n % 10 :: natDigitsRevAux fuel (n / 10)

/-- Little-endian decimal digits of `n`. -/
def natDigitsRev (n : Nat) : List Nat := natDigitsRevAux (n + 1) n

/-- Value of a little-endian decimal digit list. -/
def digitsRevVal : List Nat → Nat
  | [] => 0
  | d :: ds => d + 10 * digitsRevVal ds

/-- Python `str(n)` for a natural number. -/
def natDecChars (n : Nat) : List Char :=
  if n = 0 then ['0'] else ((natDigitsRev n).reverse).map digitChar

/-- Python `str(i)` for an integer. -/
def intDecChars (i : Int) : List Char :=
  if i < 0 then '-' :: natDecChars i.natAbs else natDecChars i.toNat

/-- Lower-case hex character for a value `0`–`15`. -/
def hexDigitChar (d : Nat) : Char :=
  if d < 10 then Char.ofNat ('0'.toNat + d) else Char.ofNat ('a'.toNat + (d - 10))

/-- Two-character lower-case hex rendering of one byte, as produced by
Python `bytes.hex()`. -/
def byteHexChars (b : Nat) : List Char :=
  [hexDigitChar (b % 256 / 16), hexDigitChar (b % 16)]

/-- Python `bytes.hex()` over a byte list. -/
def bytesHex : List Nat → List Char
  | [] => []
  | b :: bs => byteHexChars b ++ bytesHex bs

/-- Value of one hex digit character, `none` otherwise. -/
def hexVal? (c : Char) : Option Nat :=
  if '0' ≤ c ∧ c ≤ '9' then some (c.toNat - '0'.toNat)
  else if 'a' ≤ c ∧ c ≤ 'f' then some (c.toNat - 'a'.toNat + 10)
  else if 'A' ≤ c ∧ c ≤ 'F' then some (c.toNat - 'A'.toNat + 10)
  else none

/-- Parse an even-length run of hex digits into bytes. -/
def hexPairs? : List Char → Option (List Nat)
  | [] => some []
  | [_] => none
  | h :: l :: rest =>
    match hexVal? h, hexVal? l, hexPairs? rest with
    | some a, some b, some bs => some ((a * 16 + b) :: bs)
    | _, _, _ => none

/-- Python `bytes.fromhex(s)`: spaces are ignored, the remaining characters
must be an even-length run of hex digits; `none` models the `ValueError`
raised otherwise. -/
def bytesFromHex? (cs : List Char) : Option (List Nat) :=
  hexPairs? (cs.filter (fun c => c ≠ ' '))

/-- Python `str.split(sep)` for a one-character separator. -/
def splitOnChar (sep : Char) : List Char → List (List Char)
  | [] => [[]]
  | c :: rest =>
    if c = sep then [] :: splitOnChar sep rest
    else (splitOnChar sep rest).modifyHead (c :: ·)

/-- A character Python can encode to one ASCII byte. -/
def charIsAscii (c : Char) : Bool := c.toNat < 128

/-- `secrets.compare_digest` on two `str` arguments: both must be pure
ASCII (otherwise CPython raises `TypeError`, which `verify_password` does
not catch); the result is equality of the two strings. -/
def compareDigestStr (a b : List Char) : Except PyErr Bool :=
  if a.all charIsAscii ∧ b.all charIsAscii then .ok (decide (a = b))
  else .error .typeError

/-! ### Configuration constants of `auth_service.py` -/

def SECRET_KEY : String := "your-super-secret-key-change-in-production"

def ACCESS_TOKEN_EXPIRE_MINUTES : Int := 30

def REFRESH_TOKEN_EXPIRE_DAYS : Int := 30

/-- 32 bytes = 256 bits. -/
def SALT_LENGTH : Nat := 32

/-- OWASP recommended minimum. -/
def HASH_ITERATIONS : Nat := 100000

/-- The seconds-valued TTL of a refresh token
(`timedelta(days=REFRESH_TOKEN_EXPIRE_DAYS)`). -/
def refreshTtl : Int := REFRESH_TOKEN_EXPIRE_DAYS * 86400

/-- The seconds-valued default TTL of an access token
(`timedelta(minutes=ACCESS_TOKEN_EXPIRE_MINUTES)`). -/
def accessTtl : Int := ACCESS_TOKEN_EXPIRE_MINUTES * 60

/-! ### Credential hasher -/

/-- The type of the abstract PBKDF2-HMAC-SHA256 primitive:
`hashlib.pbkdf2_hmac("sha256", password, salt, iterations)` as a function
from the password characters, the salt bytes and the iteration count to
the derived-key bytes. -/
abbrev Kdf := List Char → List Nat → Nat → List Nat

/-- `verify_password(plain_password, hashed_password)`: split the stored
record on `$` into `iterations$salt$hash`, re-derive and compare in
constant time.  `ValueError`/`IndexError` (bad field count, non-numeric
iteration count, non-hex salt, non-positive iteration count passed to
`pbkdf2_hmac`) are caught and yield `false`; the `TypeError` raised by
`secrets.compare_digest` on a non-ASCII operand is not caught. -/
def verify_password (kdf : Kdf) (plain_password hashed_password : List Char) :
    Except PyErr Bool :=
  match splitOnChar '$' hashed_password with
  | [p0, p1, p2] =>
    match pyInt? p0 with
    | none => .ok false
    | some iterations =>
      match bytesFromHex? p1 with
      | none => .ok false
      | some salt =>
        if iterations < 1 then .ok false
        else
          compareDigestStr (bytesHex (kdf plain_password salt iterations.toNat)) p2
  | _ => .ok false

/-- `get_password_hash(password)` with the randomly drawn salt made an
explicit argument: returns `f"{HASH_ITERATIONS}${salt.hex()}${hash.hex()}"`. -/
def get_password_hash (kdf : Kdf) (salt : List Nat) (password : List Char) :
    List Char :=
  natDecChars HASH_ITERATIONS ++ '$' :: bytesHex salt
    ++ '$' :: bytesHex (kdf password salt HASH_ITERATIONS)

/-- A credential record in the storage format
`"<iterations>$<salt-hex>$<hash-hex>"`; `get_password_hash` produces
exactly `encodeCredentialRecord HASH_ITERATIONS salt (kdf password salt
HASH_ITERATIONS)`. -/
def encodeCredentialRecord (iterations : Nat) (salt hash : List Nat) : List Char :=
  natDecChars iterations ++ '$' :: bytesHex salt ++ '$' :: bytesHex hash

/-! ### Token codec (pyjwt with `SECRET_KEY`, HS256) -/

/-- A token string: either the result of `jwt.encode` on a payload
`{"sub": sub, "exp": exp, "type": typ}` under a signing key, or any other
string (which no key decodes). -/
inductive TokenStr where
  | signed (key : String) (sub : List Char) (exp : Int) (typ : String)
  | other (id : Nat)
  deriving DecidableEq, Repr

/-- A decoded JWT payload. -/
structure Payload where
  sub : List Char
  exp : Int
  typ : String
  deriving DecidableEq, Repr

/-- The pyjwt exceptions distinguished by the source (`ExpiredSignatureError`
is a subclass of `InvalidTokenError`; the source lists both). -/
inductive JwtError where
  | expiredSignature
  | invalidToken
  deriving DecidableEq, Repr

/-- `jwt.encode(payload, key, algorithm="HS256")`. -/
def jwtEncode (key : String) (sub : List Char) (exp : Int) (typ : String) :
    TokenStr :=
  .signed key sub exp typ

/-- `jwt.decode(token, key, algorithms=["HS256"])` at current time `now`:
signature failure and malformed structure raise `InvalidTokenError`; an
embedded expiry at or before `now` raises `ExpiredSignatureError`. -/
def jwtDecode (key : String) (now : Int) : TokenStr → Except JwtError Payload
  | .signed k s e t =>
    if k ≠ key then .error .invalidToken
    else if e ≤ now then .error .expiredSignature
    else .ok ⟨s, e, t⟩
  | .other _ => .error .invalidToken

/-! ### Refresh token store (the `refresh_tokens` table) -/

/-- One row of the `refresh_tokens` table. -/
structure RefreshTokenRec where
  user_id : Int
  token : TokenStr
  expires_at : Int
  deriving DecidableEq, Repr

/-- The `refresh_tokens` table as the database session sees it. -/
abbrev Store := List RefreshTokenRec

/-! ### Session issuance service (`auth_service.py`) -/

/-- `create_access_token(user_id, expires_delta)` at current time `now`. -/
def create_access_token (now : Int) (user_id : Int) (expires_delta : Option Int) :
    TokenStr :=
  let expire := match expires_delta with
    | some d => now + d
    | none => now + accessTtl
  jwtEncode SECRET_KEY (intDecChars user_id) expire "access"

/-- `create_refresh_token(db, user_id)` at current time `now`: encode the
token with expiry `now + 30 days`, delete this user's rows whose
`expires_at <= now`, insert the new row, and return the token (the new
store is returned alongside it). -/
def create_refresh_token (now : Int) (user_id : Int) (db : Store) :
    TokenStr × Store :=
  let expires_at := now + refreshTtl
  let token := jwtEncode SECRET_KEY (intDecChars user_id) expires_at "refresh"
  let cleaned := db.filter
    (fun r => decide ¬(r.user_id = user_id ∧ r.expires_at ≤ now))
  (token, cleaned ++ [⟨user_id, token, expires_at⟩])

/-- `verify_access_token(token)` at current time `now`: decode, check the
type discriminator, convert the subject with `int()`.  The `jwt.*`
exceptions are caught and yield `None`; the `ValueError` of `int()` on a
non-numeric subject is not caught. -/
def verify_access_token (now : Int) (token : TokenStr) :
    Except PyErr (Option Int) :=
  match jwtDecode SECRET_KEY now token with
  | .error _ => .ok none
  | .ok payload =>
    if payload.typ ≠ "access" then .ok none
    else
      match pyInt? payload.sub with
      | none => .error .valueError
      | some user_id => .ok (some user_id)

/-- The store lookup inside `verify_refresh_token`: the first row matching
the token value, the decoded subject, and `expires_at > now`. -/
def findValidToken (db : Store) (token : TokenStr) (user_id : Int) (now : Int) :
    Option RefreshTokenRec :=
  db.find? (fun r => decide (r.token = token ∧ r.user_id = user_id ∧ now < r.expires_at))

/-- `verify_refresh_token(db, token)` at current time `now`: decode, check
the type discriminator, convert the subject with `int()`, and require a
matching live row in the store.  The `jwt.*` exceptions are caught and
yield `None`; the `ValueError` of `int()` is not caught. -/
def verify_refresh_token (now : Int) (db : Store) (token : TokenStr) :
    Except PyErr (Option Int) :=
  match jwtDecode SECRET_KEY now token with
  | .error _ => .ok none
  | .ok payload =>
    if payload.typ ≠ "refresh" then .ok none
    else
      match pyInt? payload.sub with
      | none => .error .valueError
      | some user_id =>
        match findValidToken db token user_id now with
        | none => .ok none
        | some _ => .ok (some user_id)

/-- `revoke_refresh_token(db, token)`: delete the first row holding the
token value, if any; return the new store and whether a row was deleted. -/
def revoke_refresh_token (db : Store) (token : TokenStr) : Store × Bool :=
  match db.find? (fun r => decide (r.token = token)) with
  | some _ => (db.eraseP (fun r => decide (r.token = token)), true)
  | none => (db, false)

/-- `revoke_all_user_tokens(db, user_id)`: delete every row of the user.
The second component is the Python return value, which is always `None`
(the function is annotated `-> None`; the count reported by the SQLAlchemy
`delete()` call is discarded). -/
def revoke_all_user_tokens (db : Store) (user_id : Int) : Store × Option Int :=
  (db.filter (fun r => decide ¬(r.user_id = user_id)), none)

/-! ### Users, authentication, and the login route -/

/-- One row of the `users` table (the fields `authenticate_user` reads). -/
structure UserRec where
  id : Int
  username : String
  password_hash : List Char
  deriving DecidableEq, Repr

/-- `authenticate_user(db, username, password)`: look the user up by
username, then verify the password; `None` on unknown username or failed
verification.  An exception escaping `verify_password` propagates. -/
def authenticate_user (kdf : Kdf) (users : List UserRec) (username : String)
    (password : List Char) : Except PyErr (Option UserRec) :=
  match users.find? (fun u => u.username == username) with
  | none => .ok none
  | some user =>
    match verify_password kdf password user.password_hash with
    | .error e => .error e
    | .ok false => .ok none
    | .ok true => .ok (some user)

/-- The outcome of the `/auth/login` handler: either an `AuthResponse`
carrying both tokens, or an `HTTPException` with status code and detail. -/
inductive LoginResult where
  | success (accessToken refreshToken : TokenStr) (message : String)
  | httpError (statusCode : Nat) (detail : String)
  deriving DecidableEq, Repr

/-- The `login` handler of `auth_routes.py` at current time `now`:
authenticate, raise 401 on failure, otherwise mint an access token and a
refresh token.  Returns the result together with the resulting store. -/
def login (kdf : Kdf) (now : Int) (users : List UserRec) (db : Store)
    (username : String) (password : List Char) :
    Except PyErr (LoginResult × Store) :=
  match authenticate_user kdf users username password with
  | .error e => .error e
  | .ok none => .ok (.httpError 401 "Invalid username or password", db)
  | .ok (some user) =>
    let access_token := create_access_token now user.id none
    let (refresh_token, db') := create_refresh_token now user.id db
    .ok (.success access_token refresh_token "Login successful", db')

/-! ### Concrete sample data for closed instances -/

/-- A signed refresh token for user 1, expiring at instant 100. -/
def sampleTok1 : TokenStr := .signed SECRET_KEY ['1'] 100 "refresh"

/-- A signed refresh token for user 2, expiring at instant 100. -/
def sampleTok2 : TokenStr := .signed SECRET_KEY ['2'] 100 "refresh"

/-- The store row persisting `sampleTok1`. -/
def sampleRec1 : RefreshTokenRec := ⟨1, sampleTok1, 100⟩

/-- The store row persisting `sampleTok2`. -/
def sampleRec2 : RefreshTokenRec := ⟨2, sampleTok2, 100⟩

end Clockwork
namespace Clockwork

theorem digitVal?_digitChar : ∀ d < 10, digitVal? (digitChar d) = some d := by decide

theorem digitChar_facts : ∀ d < 10, digitChar d ≠ '$' ∧ digitChar d ≠ '-' ∧
    digitChar d ≠ '+' ∧ digitChar d ≠ ' ' ∧ charIsAscii (digitChar d) = true := by decide

theorem hexVal?_hexDigitChar : ∀ d < 16, hexVal? (hexDigitChar d) = some d := by decide

theorem hexDigitChar_facts : ∀ d < 16, hexDigitChar d ≠ '$' ∧ hexDigitChar d ≠ ' ' ∧
    charIsAscii (hexDigitChar d) = true := by decide

theorem digitsRevVal_natDigitsRevAux :
    ∀ fuel n, n ≤ fuel → digitsRevVal (natDigitsRevAux fuel n) = n := by
  intro fuel
  induction fuel with
  | zero =>
    intro n h
    have : n = 0 := by omega
    subst this
    rfl
  | succ f ih =>
    intro n h
    by_cases hn : n = 0
    · subst hn; rfl
    · rw [natDigitsRevAux, if_neg hn]
      simp only [digitsRevVal]
      rw [ih (n / 10) (by omega)]
      omega

theorem natDigitsRevAux_lt :
    ∀ fuel n, ∀ d ∈ natDigitsRevAux fuel n, d < 10 := by
  intro fuel
  induction fuel with
  | zero => intro n d hd; simp [natDigitsRevAux] at hd
  | succ f ih =>
    intro n d hd
    rw [natDigitsRevAux] at hd
    by_cases hn : n = 0
    · rw [if_pos hn] at hd; simp at hd
    · rw [if_neg hn] at hd
      rcases List.mem_cons.1 hd with h | h
      · omega
      · exact ih _ _ h

theorem natDigitsRev_ne_nil {n : Nat} (hn : n ≠ 0) : natDigitsRev n ≠ [] := by
  rw [natDigitsRev, natDigitsRevAux, if_neg hn]
  simp

theorem foldl_digits_map :
    ∀ (ds : List Nat) (a : Nat), (∀ d ∈ ds, d < 10) →
    List.foldl
      (fun acc c =>
        match acc, digitVal? c with
        | some x, some d => some (x * 10 + d)
        | _, _ => none)
      (some a) (ds.map digitChar)
    = some (List.foldl (fun x d => x * 10 + d) a ds) := by
  intro ds
  induction ds with
  | nil => intro a _; rfl
  | cons d ds ih =>
    intro a h
    have hd : d < 10 := h d (List.mem_cons_self d ds)
    simp only [List.map_cons, List.foldl_cons, digitVal?_digitChar d hd]
    exact ih (a * 10 + d) (fun x hx => h x (List.mem_cons_of_mem d hx))

theorem foldl_reverse_digitsRevVal :
    ∀ l : List Nat, List.foldl (fun x d => x * 10 + d) 0 l.reverse = digitsRevVal l := by
  intro l
  induction l with
  | nil => rfl
  | cons d ds ih =>
    rw [List.reverse_cons, List.foldl_append]
    simp only [List.foldl_cons, List.foldl_nil, digitsRevVal, ih]
    omega

theorem natDecChars_spec (n : Nat) :
    ∃ ds : List Nat, ds ≠ [] ∧ (∀ d ∈ ds, d < 10) ∧
      natDecChars n = ds.map digitChar ∧
      List.foldl (fun x d => x * 10 + d) 0 ds = n := by
  by_cases hn : n = 0
  · subst hn
    exact ⟨[0], by simp, by simp, rfl, rfl⟩
  · refine ⟨(natDigitsRev n).reverse, ?_, ?_, ?_, ?_⟩
    · simp [natDigitsRev_ne_nil hn]
    · intro d hd
      exact natDigitsRevAux_lt _ _ d (List.mem_reverse.1 hd)
    · rw [natDecChars, if_neg hn]
    · exact (foldl_reverse_digitsRevVal _).trans (digitsRevVal_natDigitsRevAux _ _ (Nat.le_succ n))


theorem natDecChars_ne_nil (n : Nat) : natDecChars n ≠ [] := by
  obtain ⟨ds, hne, -, hmap, -⟩ := natDecChars_spec n
  rw [hmap]
  simpa using hne

theorem natDecChars_chars (n : Nat) :
    ∀ c ∈ natDecChars n, ∃ d, d < 10 ∧ c = digitChar d := by
  obtain ⟨ds, -, hlt, hmap, -⟩ := natDecChars_spec n
  rw [hmap]
  intro c hc
  obtain ⟨d, hd, rfl⟩ := List.mem_map.1 hc
  exact ⟨d, hlt d hd, rfl⟩

theorem decDigitsVal_natDecChars (n : Nat) : decDigitsVal (natDecChars n) = some n := by
  obtain ⟨ds, hne, hlt, hmap, hval⟩ := natDecChars_spec n
  cases hds : ds with
  | nil => exact absurd hds hne
  | cons d ds' =>
    subst hds
    rw [hmap]
    show List.foldl _ (some 0) (List.map digitChar (d :: ds')) = some n
    rw [foldl_digits_map _ 0 hlt, hval]

theorem dropWhile_eq_self_of {p : Char → Bool} {l : List Char}
    (h : ∀ c ∈ l, p c = false) : l.dropWhile p = l := by
  cases l with
  | nil => rfl
  | cons c cs =>
    rw [List.dropWhile_cons, h c (List.mem_cons_self c cs)]
    simp

theorem stripSpaces_eq_self {l : List Char} (h : ∀ c ∈ l, c ≠ ' ') :
    stripSpaces l = l := by
  rw [stripSpaces,
    dropWhile_eq_self_of (fun c hc => decide_eq_false (h c hc)),
    dropWhile_eq_self_of (fun c hc => decide_eq_false (h c (List.mem_reverse.1 hc))),
    List.reverse_reverse]

theorem pyInt?_natDecChars (n : Nat) : pyInt? (natDecChars n) = some (n : Int) := by
  have hchars := natDecChars_chars n
  have hnospace : ∀ c ∈ natDecChars n, c ≠ ' ' := by
    intro c hc
    obtain ⟨d, hd, rfl⟩ := hchars c hc
    exact (digitChar_facts d hd).2.2.2.1
  obtain ⟨c, rest, hcs⟩ : ∃ c rest, natDecChars n = c :: rest := by
    cases h : natDecChars n with
    | nil => exact absurd h (natDecChars_ne_nil n)
    | cons c rest => exact ⟨c, rest, rfl⟩
  obtain ⟨d, hd, hc⟩ := hchars c (by rw [hcs]; exact List.mem_cons_self c rest)
  rw [pyInt?, stripSpaces_eq_self hnospace, hcs, signedDigitsVal?,
    if_neg (hc ▸ (digitChar_facts d hd).2.1),
    if_neg (hc ▸ (digitChar_facts d hd).2.2.1),
    ← hcs, decDigitsVal_natDecChars]
  rfl

theorem pyInt?_intDecChars (i : Int) : pyInt? (intDecChars i) = some i := by
  by_cases hi : i < 0
  · rw [intDecChars, if_pos hi]
    have hchars := natDecChars_chars i.natAbs
    have hnospace : ∀ c ∈ ('-' :: natDecChars i.natAbs), c ≠ ' ' := by
      intro c hc
      rcases List.mem_cons.1 hc with rfl | hc
      · decide
      · obtain ⟨d, hd, rfl⟩ := hchars c hc
        exact (digitChar_facts d hd).2.2.2.1
    rw [pyInt?, stripSpaces_eq_self hnospace, signedDigitsVal?, if_pos rfl,
      decDigitsVal_natDecChars]
    simp only [Option.bind_eq_bind, Option.some_bind, Option.pure_def,
      Option.map_some', Option.some.injEq]
    omega
  · rw [intDecChars, if_neg hi, pyInt?_natDecChars]
    congr 1
    omega

theorem bytesHex_chars :
    ∀ bs : List Nat, ∀ c ∈ bytesHex bs, ∃ d, d < 16 ∧ c = hexDigitChar d := by
  intro bs
  induction bs with
  | nil => intro c hc; simp [bytesHex] at hc
  | cons b bs ih =>
    intro c hc
    rw [bytesHex] at hc
    rcases List.mem_append.1 hc with hc | hc
    · rcases List.mem_cons.1 hc with rfl | hc
      · exact ⟨b % 256 / 16, by omega, rfl⟩
      · rcases List.mem_cons.1 hc with rfl | hc
        · exact ⟨b % 16, by omega, rfl⟩
        · simp at hc
    · exact ih c hc

theorem hexPairs?_bytesHex :
    ∀ bs : List Nat, (∀ b ∈ bs, b < 256) → hexPairs? (bytesHex bs) = some bs := by
  intro bs
  induction bs with
  | nil => intro _; rfl
  | cons b bs ih =>
    intro h
    have hb : b < 256 := h b (List.mem_cons_self b bs)
    have h1 : b % 256 / 16 < 16 := by omega
    have h2 : b % 16 < 16 := by omega
    have hm : b % 256 = b := Nat.mod_eq_of_lt hb
    show hexPairs? (hexDigitChar (b % 256 / 16) :: hexDigitChar (b % 16) :: bytesHex bs)
      = some (b :: bs)
    rw [hm, hexPairs?, hexVal?_hexDigitChar _ (by omega : b / 16 < 16),
      hexVal?_hexDigitChar _ h2,
      ih (fun x hx => h x (List.mem_cons_of_mem b hx))]
    simp only [Option.some.injEq, List.cons.injEq, and_true]
    omega

theorem bytesFromHex?_bytesHex {bs : List Nat} (h : ∀ b ∈ bs, b < 256) :
    bytesFromHex? (bytesHex bs) = some bs := by
  rw [bytesFromHex?, List.filter_eq_self.2, hexPairs?_bytesHex bs h]
  intro c hc
  obtain ⟨d, hd, rfl⟩ := bytesHex_chars bs c hc
  exact decide_eq_true ((hexDigitChar_facts d hd).2.1)

theorem splitOnChar_no_sep (sep : Char) :
    ∀ l : List Char, (∀ c ∈ l, c ≠ sep) → splitOnChar sep l = [l] := by
  intro l
  induction l with
  | nil => intro _; rfl
  | cons c rest ih =>
    intro h
    rw [splitOnChar, if_neg (h c (List.mem_cons_self c rest)),
      ih (fun x hx => h x (List.mem_cons_of_mem c hx))]
    rfl

theorem splitOnChar_append (sep : Char) (a rest : List Char) (h : ∀ c ∈ a, c ≠ sep) :
    splitOnChar sep (a ++ sep :: rest) = a :: splitOnChar sep rest := by
  induction a with
  | nil =>
    rw [List.nil_append, splitOnChar, if_pos rfl]
  | cons c a ih =>
    rw [List.cons_append, splitOnChar, if_neg (h c (List.mem_cons_self c a)),
      ih (fun x hx => h x (List.mem_cons_of_mem c hx))]
    rfl

/-- Splitting a three-field record on the delimiter recovers the fields,
provided no field contains the delimiter. -/
theorem splitOnChar_three (sep : Char) (s1 s2 s3 : List Char)
    (h1 : ∀ c ∈ s1, c ≠ sep) (h2 : ∀ c ∈ s2, c ≠ sep) (h3 : ∀ c ∈ s3, c ≠ sep) :
    splitOnChar sep (s1 ++ sep :: (s2 ++ sep :: s3)) = [s1, s2, s3] := by
  rw [splitOnChar_append sep s1 _ h1, splitOnChar_append sep s2 _ h2,
    splitOnChar_no_sep sep s3 h3]

theorem bytesHex_all_ascii (bs : List Nat) : (bytesHex bs).all charIsAscii = true := by
  rw [List.all_eq_true]
  intro c hc
  obtain ⟨d, hd, rfl⟩ := bytesHex_chars bs c hc
  exact (hexDigitChar_facts d hd).2.2

theorem bytesHex_no_dollar (bs : List Nat) : ∀ c ∈ bytesHex bs, c ≠ '$' := by
  intro c hc
  obtain ⟨d, hd, rfl⟩ := bytesHex_chars bs c hc
  exact (hexDigitChar_facts d hd).1

theorem natDecChars_no_dollar (n : Nat) : ∀ c ∈ natDecChars n, c ≠ '$' := by
  intro c hc
  obtain ⟨d, hd, rfl⟩ := natDecChars_chars n c hc
  exact (digitChar_facts d hd).1

theorem compareDigestStr_self {x : List Char} (hx : x.all charIsAscii = true) :
    compareDigestStr x x = .ok true := by
  rw [compareDigestStr, if_pos ⟨hx, hx⟩]
  simp

/-- Verification succeeds on any well-formed credential record whose hash
field was derived from the password, the salt, and the record's own
iteration count. -/
theorem verify_password_encoded (kdf : Kdf) (password : List Char) (N : Nat)
    (salt : List Nat) (hN : 1 ≤ N) (hsalt : ∀ b ∈ salt, b < 256) :
    verify_password kdf password
      (encodeCredentialRecord N salt (kdf password salt N)) = .ok true := by
  rw [verify_password, encodeCredentialRecord, List.append_assoc, List.cons_append,
    splitOnChar_three '$' _ _ _ (natDecChars_no_dollar N)
      (bytesHex_no_dollar salt) (bytesHex_no_dollar (kdf password salt N))]
  simp only [pyInt?_natDecChars, bytesFromHex?_bytesHex hsalt]
  rw [if_neg (by omega : ¬((N : Int) < 1)), Int.toNat_natCast]
  exact compareDigestStr_self (bytesHex_all_ascii (kdf password salt N))

theorem find?_append_singleton {α : Type} {p : α → Bool} {l : List α} {a : α}
    (hl : ∀ x ∈ l, p x = false) (ha : p a = true) : (l ++ [a]).find? p = some a := by
  induction l with
  | nil => simp [List.find?_cons_of_pos _ ha]
  | cons x l ih =>
    rw [List.cons_append, List.find?_cons_of_neg _ (by
      simp [hl x (List.mem_cons_self x l)])]
    exact ih (fun y hy => hl y (List.mem_cons_of_mem x hy))

theorem eraseP_append_singleton {α : Type} {p : α → Bool} {l : List α} {a : α}
    (hl : ∀ x ∈ l, p x = false) (ha : p a = true) : (l ++ [a]).eraseP p = l := by
  induction l with
  | nil => simp [List.eraseP_cons_of_pos ha]
  | cons x l ih =>
    rw [List.cons_append, List.eraseP_cons_of_neg (by
      simp [hl x (List.mem_cons_self x l)])]
    rw [ih (fun y hy => hl y (List.mem_cons_of_mem x hy))]

/-- C1: a refresh token minted by `create_refresh_token`, once passed to
`revoke_refresh_token`, is rejected by `verify_refresh_token` even though
its signature still verifies and its embedded expiry has not passed. -/
theorem C1_revocation_overrides_valid_signature
    (st : Store) (uid : Int) (now now' : Int)
    (hfresh : ∀ r ∈ st, r.token ≠ (create_refresh_token now uid st).1)
    (hunexpired : now' < now + refreshTtl) :
    (jwtDecode SECRET_KEY now' (create_refresh_token now uid st).1).isOk = true ∧
    verify_refresh_token now'
      (revoke_refresh_token (create_refresh_token now uid st).2
        (create_refresh_token now uid st).1).1
      (create_refresh_token now uid st).1 = .ok none := by
  have htok : (create_refresh_token now uid st).1
      = TokenStr.signed SECRET_KEY (intDecChars uid) (now + refreshTtl) "refresh" := rfl
  have hst : (create_refresh_token now uid st).2
      = st.filter (fun r => decide ¬(r.user_id = uid ∧ r.expires_at ≤ now))
        ++ [⟨uid, (create_refresh_token now uid st).1, now + refreshTtl⟩] := rfl
  have hdec : jwtDecode SECRET_KEY now' (create_refresh_token now uid st).1
      = .ok ⟨intDecChars uid, now + refreshTtl, "refresh"⟩ := by
    rw [htok, jwtDecode, if_neg (by simp), if_neg (by omega)]
  have hmem : ∀ x ∈ st.filter (fun r => decide ¬(r.user_id = uid ∧ r.expires_at ≤ now)),
      x ∈ st := fun x hx => (List.mem_filter.1 hx).1
  have hno : ∀ x ∈ st.filter (fun r => decide ¬(r.user_id = uid ∧ r.expires_at ≤ now)),
      (decide (x.token = (create_refresh_token now uid st).1)) = false :=
    fun x hx => decide_eq_false (hfresh x (hmem x hx))
  have hp : (decide ((⟨uid, (create_refresh_token now uid st).1, now + refreshTtl⟩ :
      RefreshTokenRec).token = (create_refresh_token now uid st).1)) = true :=
    decide_eq_true rfl
  have hrev : (revoke_refresh_token (create_refresh_token now uid st).2
      (create_refresh_token now uid st).1).1
      = st.filter (fun r => decide ¬(r.user_id = uid ∧ r.expires_at ≤ now)) := by
    rw [revoke_refresh_token, hst, find?_append_singleton hno hp]
    simp only []
    exact eraseP_append_singleton hno hp
  have hfind : findValidToken
      (st.filter (fun r => decide ¬(r.user_id = uid ∧ r.expires_at ≤ now)))
      (create_refresh_token now uid st).1 uid now' = none := by
    rw [findValidToken, List.find?_eq_none]
    intro r hr
    simp only [decide_eq_true_eq, not_and]
    intro h1
    exact absurd h1 (hfresh r (hmem r hr))
  refine ⟨by rw [hdec]; rfl, ?_⟩
  rw [hrev, verify_refresh_token, hdec]
  simp only [ne_eq]
  rw [if_neg (by simp), htok]
  simp only [pyInt?_intDecChars]
  rw [← htok, hfind]

/-- Witness for C1: the revocation invariant evaluated at user 1, an empty
prior store, minting at instant 0 and verifying at instant 5. -/
theorem C1_revocation_overrides_valid_signature_witness :
    (∀ r ∈ ([] : Store), r.token ≠ (create_refresh_token 0 1 []).1) ∧
    ((5 : Int) < 0 + refreshTtl) ∧
    ((jwtDecode SECRET_KEY 5 (create_refresh_token 0 1 []).1).isOk = true ∧
      verify_refresh_token 5
        (revoke_refresh_token (create_refresh_token 0 1 []).2
          (create_refresh_token 0 1 []).1).1
        (create_refresh_token 0 1 []).1 = .ok none) :=
  ⟨by simp, by decide,
    C1_revocation_overrides_valid_signature [] 1 0 5 (by simp) (by decide)⟩

/-- C6: the store lookup of refresh-token verification returns a record
only if it matches the token value and the decoded subject and its
persisted expiry is strictly after `now`; a record with a stale expiry or
a different owner is never returned. -/
theorem C6_store_lookup_only_matching_live
    (db : Store) (token : TokenStr) (uid now : Int) (r : RefreshTokenRec)
    (h : findValidToken db token uid now = some r) :
    (r.token = token ∧ r.user_id = uid ∧ now < r.expires_at) ∧
    ∀ r' : RefreshTokenRec, r'.expires_at ≤ now ∨ r'.user_id ≠ uid →
      findValidToken db token uid now ≠ some r' := by
  constructor
  · rw [findValidToken] at h
    simpa using List.find?_some h
  · intro r' hr' heq
    rw [findValidToken] at heq
    have := List.find?_some heq
    simp only [decide_eq_true_eq] at this
    rcases hr' with hr' | hr'
    · omega
    · exact hr' this.2.1

/-- Witness for C6 at a one-row store holding `sampleRec1`. -/
theorem C6_store_lookup_only_matching_live_witness :
    findValidToken [sampleRec1] sampleTok1 1 0 = some sampleRec1 ∧
    (sampleRec1.token = sampleTok1 ∧ sampleRec1.user_id = 1 ∧
      (0 : Int) < sampleRec1.expires_at) :=
  ⟨by decide,
    (C6_store_lookup_only_matching_live [sampleRec1] sampleTok1 1 0 sampleRec1
      (by decide)).1⟩

/-- C7: `create_refresh_token` first deletes exactly the caller's rows
whose persisted expiry is at or before `now`, then appends the newly
minted row: an expired row of the subject disappears, a live row of the
subject and a row of another subject survive. -/
theorem C7_mint_sweeps_expired
    (now uid : Int) (r1 r2 r3 : RefreshTokenRec)
    (h1 : r1.user_id = uid) (h2 : r1.expires_at ≤ now)
    (_h3 : r2.user_id = uid) (h4 : now < r2.expires_at)
    (h5 : r3.user_id ≠ uid) :
    (create_refresh_token now uid [r1, r2, r3]).2
      = [r2, r3,
          ⟨uid, (create_refresh_token now uid [r1, r2, r3]).1, now + refreshTtl⟩] := by
  have e1 : (decide ¬(r1.user_id = uid ∧ r1.expires_at ≤ now)) = false := by
    simp [h1, h2]
  have e2 : (decide ¬(r2.user_id = uid ∧ r2.expires_at ≤ now)) = true := by
    simp only [decide_eq_true_eq, not_and]
    intro _
    omega
  have e3 : (decide ¬(r3.user_id = uid ∧ r3.expires_at ≤ now)) = true := by
    simp [h5]
  have hsplit : (create_refresh_token now uid [r1, r2, r3]).2
      = List.filter (fun r => decide ¬(r.user_id = uid ∧ r.expires_at ≤ now)) [r1, r2, r3]
        ++ [⟨uid, (create_refresh_token now uid [r1, r2, r3]).1, now + refreshTtl⟩] := rfl
  rw [hsplit, List.filter_cons, List.filter_cons, List.filter_cons, List.filter_nil,
    e1, e2, e3]
  rfl

/-- Witness for C7: one expired row and one live row of user 1 and a row
of user 2, sweeping at instant 5. -/
theorem C7_mint_sweeps_expired_witness :
    ((⟨1, .other 0, 0⟩ : RefreshTokenRec).user_id = 1 ∧
      (⟨1, .other 0, 0⟩ : RefreshTokenRec).expires_at ≤ (5 : Int) ∧
      (⟨1, .other 1, 100⟩ : RefreshTokenRec).user_id = 1 ∧
      (5 : Int) < (⟨1, .other 1, 100⟩ : RefreshTokenRec).expires_at ∧
      (⟨2, .other 2, 100⟩ : RefreshTokenRec).user_id ≠ 1) ∧
    (create_refresh_token 5 1 [⟨1, .other 0, 0⟩, ⟨1, .other 1, 100⟩, ⟨2, .other 2, 100⟩]).2
      = [⟨1, .other 1, 100⟩, ⟨2, .other 2, 100⟩,
          ⟨1, (create_refresh_token 5 1
            [⟨1, .other 0, 0⟩, ⟨1, .other 1, 100⟩, ⟨2, .other 2, 100⟩]).1, 5 + refreshTtl⟩] :=
  ⟨⟨by decide, by decide, by decide, by decide, by decide⟩,
    C7_mint_sweeps_expired 5 1 _ _ _ (by decide) (by decide) (by decide) (by decide)
      (by decide)⟩

/-- C10: the expiry embedded in a minted refresh token's `exp` claim is
exactly the `expires_at` of the store row inserted for it; both come from
the single instant computed at minting. -/
theorem C10_embedded_exp_equals_persisted (now uid : Int) (st : Store) :
    ∃ e : Int, (create_refresh_token now uid st).1
        = TokenStr.signed SECRET_KEY (intDecChars uid) e "refresh" ∧
      (create_refresh_token now uid st).2.getLast?
        = some ⟨uid, (create_refresh_token now uid st).1, e⟩ :=
  ⟨now + refreshTtl, rfl, List.getLast?_concat _⟩

/-- C2: a hash freshly produced by `get_password_hash` verifies against
the password it was derived from, for every salt drawn and for every
key-derivation primitive. -/
theorem C2_verify_of_hash_roundtrip (kdf : Kdf) (password : List Char)
    (salt : List Nat) (hsalt : ∀ b ∈ salt, b < 256) :
    verify_password kdf password (get_password_hash kdf salt password) = .ok true := by
  have h : get_password_hash kdf salt password
      = encodeCredentialRecord HASH_ITERATIONS salt
          (kdf password salt HASH_ITERATIONS) := rfl
  rw [h]
  exact verify_password_encoded kdf password HASH_ITERATIONS salt (by decide) hsalt

/-- Witness for C2 at a one-byte salt and a fixed key-derivation
function. -/
theorem C2_verify_of_hash_roundtrip_witness :
    (∀ b ∈ [(7 : Nat)], b < 256) ∧
    verify_password (fun _ _ _ => [0]) ['p']
      (get_password_hash (fun _ _ _ => [0]) [7] ['p']) = .ok true :=
  ⟨by decide, C2_verify_of_hash_roundtrip (fun _ _ _ => [0]) ['p'] [7] (by decide)⟩

/-- C8: the credential encoding is self-describing — a record
`N$salt-hex$hash-hex` whose hash was derived with `N` iterations verifies
against the password for every `N ≥ 1`, including values different from
the current `HASH_ITERATIONS` default, because verification re-derives
with the iteration count parsed from the record itself. -/
theorem C8_encoding_self_describing (kdf : Kdf) (password : List Char)
    (N : Nat) (salt : List Nat) (hN : 1 ≤ N) (hsalt : ∀ b ∈ salt, b < 256) :
    verify_password kdf password
      (encodeCredentialRecord N salt (kdf password salt N)) = .ok true :=
  verify_password_encoded kdf password N salt hN hsalt

/-- Witness for C8 at `N = 3`, which differs from the default
`HASH_ITERATIONS = 100000`. -/
theorem C8_encoding_self_describing_witness :
    (1 ≤ 3 ∧ (3 : Nat) ≠ HASH_ITERATIONS) ∧ (∀ b ∈ [(255 : Nat)], b < 256) ∧
    verify_password (fun _ _ _ => [0]) ['q']
      (encodeCredentialRecord 3 [255] ((fun _ _ _ => [0]) ['q'] [255] 3)) = .ok true :=
  ⟨⟨by decide, by decide⟩, by decide,
    C8_encoding_self_describing (fun _ _ _ => [0]) ['q'] 3 [255] (by decide) (by decide)⟩

/-- C4: the claim fails as stated — `verify_password` is not
exception-free on every stored string.  The three malformed shapes the
spec lists (wrong field count, non-numeric iteration count, non-hex salt)
do return `false`, but a record whose third field contains a non-ASCII
character reaches `secrets.compare_digest`, whose `TypeError` is outside
the `except (ValueError, IndexError)` clause: at
`plain_password = "x"`, `hashed_password = "1$$é"` the function raises. -/
theorem C4_verify_password_typeerror_escapes (kdf : Kdf) :
    verify_password kdf ['x'] ['a', 'b'] = .ok false ∧
    verify_password kdf ['x'] ['z', '$', '0', '0', '$', '0', '0'] = .ok false ∧
    verify_password kdf ['x'] ['1', '$', 'z', 'z', '$', '0', '0'] = .ok false ∧
    verify_password kdf ['x'] ['1', '$', '$', 'é'] = .error .typeError := by
  refine ⟨rfl, rfl, rfl, ?_⟩
  have hs : splitOnChar '$' ['1', '$', '$', 'é'] = [['1'], [], ['é']] := rfl
  have hi : pyInt? ['1'] = some 1 := rfl
  have hb : bytesFromHex? ([] : List Char) = some [] := rfl
  simp only [verify_password, hs, hi, hb]
  rw [if_neg (by decide), compareDigestStr, if_neg]
  intro hcontra
  exact absurd hcontra.2 (by decide)

/-- C5 counterexample: a token signed with the service's own secret key
whose `sub` claim is not a decimal integer makes both verifiers raise the
`ValueError` of `int()` instead of returning `None` — the `except`
clauses catch only the `jwt` exceptions. -/
theorem C5_counterexample_nonnumeric_sub_raises :
    verify_access_token 0 (.signed SECRET_KEY ['x'] 100 "access")
      = .error .valueError ∧
    verify_refresh_token 0 [] (.signed SECRET_KEY ['x'] 100 "refresh")
      = .error .valueError := by
  decide

/-- C5 (amended): `verify_access_token` and `verify_refresh_token` return
a subject or `None` and never raise, for every token except one signed
with the service's own secret key whose `sub` claim does not parse as an
integer; every `jwt`-level decode failure (bad signature, expiry, type
mismatch, malformed structure) is normalized to `None`. -/
theorem C5_verifiers_total_unless_bad_signed_sub
    (now : Int) (db : Store) (t : TokenStr)
    (hsub : ∀ s e ty, t = .signed SECRET_KEY s e ty → (pyInt? s).isSome) :
    (∃ r, verify_access_token now t = .ok r) ∧
    (∃ r, verify_refresh_token now db t = .ok r) := by
  cases t with
  | other n => exact ⟨⟨none, rfl⟩, ⟨none, rfl⟩⟩
  | signed k s e ty =>
    by_cases hk : k = SECRET_KEY
    · subst hk
      by_cases he : e ≤ now
      · have hd : jwtDecode SECRET_KEY now (TokenStr.signed SECRET_KEY s e ty)
            = .error .expiredSignature := by
          rw [jwtDecode, if_neg (by simp), if_pos he]
        exact ⟨⟨none, by simp only [verify_access_token, hd]⟩,
          ⟨none, by simp only [verify_refresh_token, hd]⟩⟩
      · have hd : jwtDecode SECRET_KEY now (TokenStr.signed SECRET_KEY s e ty)
            = .ok ⟨s, e, ty⟩ := by
          rw [jwtDecode, if_neg (by simp), if_neg he]
        obtain ⟨uid, hu⟩ := Option.isSome_iff_exists.1 (hsub s e ty rfl)
        constructor
        · by_cases hty : ty = "access"
          · subst hty
            refine ⟨some uid, ?_⟩
            simp only [verify_access_token, hd, hu]
            simp
          · refine ⟨none, ?_⟩
            simp only [verify_access_token, hd]
            rw [if_pos (by simpa using hty)]
        · by_cases hty : ty = "refresh"
          · subst hty
            cases hf : findValidToken db (TokenStr.signed SECRET_KEY s e "refresh") uid now with
            | none =>
              refine ⟨none, ?_⟩
              simp only [verify_refresh_token, hd, hu, hf]
              simp
            | some r =>
              refine ⟨some uid, ?_⟩
              simp only [verify_refresh_token, hd, hu, hf]
              simp
          · refine ⟨none, ?_⟩
            simp only [verify_refresh_token, hd]
            rw [if_pos (by simpa using hty)]
    · have hd : jwtDecode SECRET_KEY now (TokenStr.signed k s e ty)
          = .error .invalidToken := by
        rw [jwtDecode, if_pos (by simpa using hk)]
      exact ⟨⟨none, by simp only [verify_access_token, hd]⟩,
        ⟨none, by simp only [verify_refresh_token, hd]⟩⟩

/-- Witness for the amended C5 at an unsigned opaque token. -/
theorem C5_verifiers_total_unless_bad_signed_sub_witness :
    (∃ r, verify_access_token 0 (.other 0) = .ok r) ∧
    (∃ r, verify_refresh_token 0 [] (.other 0) = .ok r) :=
  C5_verifiers_total_unless_bad_signed_sub 0 [] (.other 0)
    (fun _ _ _ h => nomatch h)

/-- Inversion of a successful refresh-token verification: the token is
signed with the service key, carries type `"refresh"`, is unexpired, its
subject parses to the returned user id, and a matching live row exists. -/
theorem verify_refresh_token_ok_some {now : Int} {db : Store} {tok : TokenStr}
    {uid : Int} (h : verify_refresh_token now db tok = .ok (some uid)) :
    ∃ s e, tok = .signed SECRET_KEY s e "refresh" ∧ now < e ∧
      pyInt? s = some uid ∧
      ∃ r ∈ db, r.token = tok ∧ r.user_id = uid ∧ now < r.expires_at := by
  cases tok with
  | other n => exact absurd h (by simp [verify_refresh_token, jwtDecode])
  | signed k s e ty =>
    by_cases hk : k = SECRET_KEY
    · subst hk
      by_cases he : e ≤ now
      · have hd : jwtDecode SECRET_KEY now (TokenStr.signed SECRET_KEY s e ty)
            = .error .expiredSignature := by
          rw [jwtDecode, if_neg (by simp), if_pos he]
        simp only [verify_refresh_token, hd] at h
        simp at h
      · have hd : jwtDecode SECRET_KEY now (TokenStr.signed SECRET_KEY s e ty)
            = .ok ⟨s, e, ty⟩ := by
          rw [jwtDecode, if_neg (by simp), if_neg he]
        by_cases hty : ty = "refresh"
        · subst hty
          simp only [verify_refresh_token, hd, ne_eq, not_true_eq_false, if_false] at h
          cases hp : pyInt? s with
          | none => simp only [hp] at h; simp at h
          | some u =>
            simp only [hp] at h
            cases hf : findValidToken db (TokenStr.signed SECRET_KEY s e "refresh") u now with
            | none => simp only [hf] at h; simp at h
            | some r =>
              simp only [hf] at h
              simp only [Except.ok.injEq, Option.some.injEq] at h
              subst h
              have hpr := List.find?_some hf
              have hmr := List.mem_of_find?_eq_some hf
              simp only [decide_eq_true_eq] at hpr
              exact ⟨s, e, rfl, by omega, hp,
                r, hmr, hpr.1, hpr.2.1, hpr.2.2⟩
        · simp only [verify_refresh_token, hd] at h
          rw [if_pos (by simpa using hty)] at h
          simp at h
    · have hd : jwtDecode SECRET_KEY now (TokenStr.signed k s e ty)
          = .error .invalidToken := by
        rw [jwtDecode, if_pos (by simpa using hk)]
      simp only [verify_refresh_token, hd] at h
      simp at h

/-- C3 counterexample: `revoke_all_user_tokens` does delete the subject's
rows, but its Python return value is `None`, not the count of deleted
records (here one row is deleted, yet the result is not `some 1`). -/
theorem C3_counterexample_returns_none :
    (revoke_all_user_tokens [sampleRec1] 1).1 = [] ∧
    (revoke_all_user_tokens [sampleRec1] 1).2 = none ∧
    (revoke_all_user_tokens [sampleRec1] 1).2 ≠ some 1 := by
  decide

/-- C3 (amended): `revoke_all_user_tokens(subject)` deletes exactly the
refresh-token records owned by the subject and returns `None` (the count
reported by the storage layer is discarded); afterwards every previously
verifying refresh token of that subject fails `verify_refresh_token`,
while a verifying token of any other subject still verifies. -/
theorem C3_revoke_all_for_subject
    (st : Store) (uid now now2 : Int) (tok tok2 : TokenStr) (uid2 : Int)
    (h1 : verify_refresh_token now st tok = .ok (some uid))
    (h2 : uid2 ≠ uid)
    (h3 : verify_refresh_token now st tok2 = .ok (some uid2)) :
    (revoke_all_user_tokens st uid).2 = none ∧
    (∀ r : RefreshTokenRec,
      r ∈ (revoke_all_user_tokens st uid).1 ↔ r ∈ st ∧ r.user_id ≠ uid) ∧
    verify_refresh_token now2 (revoke_all_user_tokens st uid).1 tok = .ok none ∧
    verify_refresh_token now (revoke_all_user_tokens st uid).1 tok2
      = .ok (some uid2) := by
  have hmemc : ∀ r : RefreshTokenRec,
      r ∈ (revoke_all_user_tokens st uid).1 ↔ r ∈ st ∧ r.user_id ≠ uid := by
    intro r
    show r ∈ st.filter _ ↔ _
    rw [List.mem_filter]
    simp
  refine ⟨rfl, hmemc, ?_, ?_⟩
  · obtain ⟨s, e, rfl, hlt, hp, rr, hrmem, hrtok, hruid, hrexp⟩ :=
      verify_refresh_token_ok_some h1
    by_cases he : e ≤ now2
    · have hd : jwtDecode SECRET_KEY now2 (TokenStr.signed SECRET_KEY s e "refresh")
          = .error .expiredSignature := by
        rw [jwtDecode, if_neg (by simp), if_pos he]
      simp only [verify_refresh_token, hd]
    · have hd : jwtDecode SECRET_KEY now2 (TokenStr.signed SECRET_KEY s e "refresh")
          = .ok ⟨s, e, "refresh"⟩ := by
        rw [jwtDecode, if_neg (by simp), if_neg he]
      have hf : findValidToken (revoke_all_user_tokens st uid).1
          (TokenStr.signed SECRET_KEY s e "refresh") uid now2 = none := by
        rw [findValidToken, List.find?_eq_none]
        intro r hr
        have := ((hmemc r).1 hr).2
        simp only [decide_eq_true_eq]
        intro hcontra
        exact this hcontra.2.1
      simp only [verify_refresh_token, hd, ne_eq, not_true_eq_false, if_false, hp, hf]
  · obtain ⟨s2, e2, rfl, hlt2, hp2, r2, hr2mem, hr2tok, hr2uid, hr2exp⟩ :=
      verify_refresh_token_ok_some h3
    have hd : jwtDecode SECRET_KEY now (TokenStr.signed SECRET_KEY s2 e2 "refresh")
        = .ok ⟨s2, e2, "refresh"⟩ := by
      rw [jwtDecode, if_neg (by simp), if_neg (by omega)]
    have hr2mem' : r2 ∈ (revoke_all_user_tokens st uid).1 :=
      (hmemc r2).2 ⟨hr2mem, by rw [hr2uid]; exact h2⟩
    cases hf : findValidToken (revoke_all_user_tokens st uid).1
        (TokenStr.signed SECRET_KEY s2 e2 "refresh") uid2 now with
    | none =>
      rw [findValidToken, List.find?_eq_none] at hf
      have hcon := hf r2 hr2mem'
      simp only [decide_eq_true_eq, not_and, not_lt] at hcon
      exact absurd (hcon hr2tok hr2uid) (by omega)
    | some r' =>
      simp only [verify_refresh_token, hd, ne_eq, not_true_eq_false, if_false, hp2, hf]

/-- Witness for the amended C3: two users with one live token each; after
revoking all of user 1's tokens, user 1's token fails verification and
user 2's token still verifies. -/
theorem C3_revoke_all_for_subject_witness :
    verify_refresh_token 0 [sampleRec1, sampleRec2] sampleTok1 = .ok (some 1) ∧
    verify_refresh_token 0 [sampleRec1, sampleRec2] sampleTok2 = .ok (some 2) ∧
    (revoke_all_user_tokens [sampleRec1, sampleRec2] 1).2 = none ∧
    verify_refresh_token 0 (revoke_all_user_tokens [sampleRec1, sampleRec2] 1).1
      sampleTok1 = .ok none ∧
    verify_refresh_token 0 (revoke_all_user_tokens [sampleRec1, sampleRec2] 1).1
      sampleTok2 = .ok (some 2) :=
  ⟨by decide, by decide,
    (C3_revoke_all_for_subject [sampleRec1, sampleRec2] 1 0 0 sampleTok1 sampleTok2 2
      (by decide) (by decide) (by decide)).1,
    (C3_revoke_all_for_subject [sampleRec1, sampleRec2] 1 0 0 sampleTok1 sampleTok2 2
      (by decide) (by decide) (by decide)).2.2.1,
    (C3_revoke_all_for_subject [sampleRec1, sampleRec2] 1 0 0 sampleTok1 sampleTok2 2
      (by decide) (by decide) (by decide)).2.2.2⟩

/-- C9: login failure is undifferentiated — an unknown username and a
known username with a wrong password both make `authenticate_user` return
`None`, and the `login` handler maps both to the identical
401 response. -/
theorem C9_login_failure_undifferentiated (kdf : Kdf) (now : Int)
    (users : List UserRec) (st : Store)
    (username1 username2 : String) (pw1 pw2 : List Char) (u : UserRec)
    (hu : users.find? (fun x => x.username == username1) = none)
    (hf : users.find? (fun x => x.username == username2) = some u)
    (hw : verify_password kdf pw2 u.password_hash = .ok false) :
    authenticate_user kdf users username1 pw1 = .ok none ∧
    authenticate_user kdf users username2 pw2 = .ok none ∧
    login kdf now users st username1 pw1
      = .ok (.httpError 401 "Invalid username or password", st) ∧
    login kdf now users st username2 pw2
      = .ok (.httpError 401 "Invalid username or password", st) := by
  have ha1 : authenticate_user kdf users username1 pw1 = .ok none := by
    simp only [authenticate_user, hu]
  have ha2 : authenticate_user kdf users username2 pw2 = .ok none := by
    simp only [authenticate_user, hf, hw]
  exact ⟨ha1, ha2, by simp only [login, ha1], by simp only [login, ha2]⟩

/-- Witness for C9: one stored user `alice`; logging in as unknown `bob`
and as `alice` with a wrong password yield the identical 401 outcome. -/
theorem C9_login_failure_undifferentiated_witness :
    ([(⟨1, "alice", ['1', '$', '$', 'a', 'b']⟩ : UserRec)].find?
        (fun x => x.username == "bob") = none) ∧
    ([(⟨1, "alice", ['1', '$', '$', 'a', 'b']⟩ : UserRec)].find?
        (fun x => x.username == "alice")
      = some ⟨1, "alice", ['1', '$', '$', 'a', 'b']⟩) ∧
    verify_password (fun _ _ _ => [0]) ['w']
      (⟨1, "alice", ['1', '$', '$', 'a', 'b']⟩ : UserRec).password_hash = .ok false ∧
    (login (fun _ _ _ => [0]) 0 [⟨1, "alice", ['1', '$', '$', 'a', 'b']⟩] [] "bob" ['w']
        = .ok (.httpError 401 "Invalid username or password", []) ∧
      login (fun _ _ _ => [0]) 0 [⟨1, "alice", ['1', '$', '$', 'a', 'b']⟩] [] "alice" ['w']
        = .ok (.httpError 401 "Invalid username or password", [])) :=
  ⟨by decide, by decide, by decide,
    (C9_login_failure_undifferentiated (fun _ _ _ => [0]) 0
      [⟨1, "alice", ['1', '$', '$', 'a', 'b']⟩] [] "bob" "alice" ['w'] ['w']
      ⟨1, "alice", ['1', '$', '$', 'a', 'b']⟩ (by decide) (by decide) (by decide)).2.2.1,
    (C9_login_failure_undifferentiated (fun _ _ _ => [0]) 0
      [⟨1, "alice", ['1', '$', '$', 'a', 'b']⟩] [] "bob" "alice" ['w'] ['w']
      ⟨1, "alice", ['1', '$', '$', 'a', 'b']⟩ (by decide) (by decide) (by decide)).2.2.2⟩

end Clockwork
